import Mathlib

/-!
Shallow embedding of `src/bandersnatch/master.py`, the `Master` connection
class of the bandersnatch PyPI mirror client, together with theorems about
its serial-consistency guard, its RPC gateway and its constructor checks.

Modelling conventions: network effects are passed in explicitly — an HTTP
remote is a function from request URL to outcome, an XML-RPC method is a
function from its optional serial argument to an outcome.  Python
exceptions become the `MasterError` sum raised through `Except`.  Python
`int` is `Int`; the `float` configuration values are modelled as `ℚ`
(the code only tests them for truthiness, i.e. equality with zero); a
value that may be Python `None` is an `Option`.  A response's
`X-PYPI-LAST-SERIAL` header is modelled already parsed: `none` when the
header is absent, `some n` for header value `n`.
-/

deriving instance DecidableEq for Except

namespace Bandersnatch

/-- Python module constant `FIVE_HOURS_FLOAT = 5 * 60 * 60.0` from
`master.py`, written as the literal `18000` it evaluates to. -/
def FIVE_HOURS_FLOAT : ℚ := 18000

/-- Python module constant `PYPI_SERIAL_HEADER = "X-PYPI-LAST-SERIAL"`. -/
def PYPI_SERIAL_HEADER : String := "X-PYPI-LAST-SERIAL"

/-- Python `s.startswith(pre)`, on the underlying character lists. -/
def pyStartsWith (s pre : String) : Bool := pre.data.isPrefixOf s.data

/-- The exception values `master.py` raises or lets pass through:
`StalePage` (carrying the request path, the required serial and the
observed serial from the f-string), the `XmlRpcError` raised by
`all_packages`, bandersnatch's `PackageNotFound`, aiohttp's
`ClientResponseError` (raised by the session for non-2xx statuses because
it is built with `raise_for_status=True`), Python's `TimeoutError`, and
the `ValueError` raised by `Master.__init__`. -/
inductive MasterError where
  | stalePage (path : String) (requiredSerial : Int) (gotSerial : Option Int)
  | xmlRpcError (msg : String)
  | packageNotFound (packageName : String)
  | clientResponseError (status : Nat)
  | timeoutError
  | valueError (msg : String)
  deriving DecidableEq

/-- An HTTP response as `Master.get` sees it: its status, its parsed
`X-PYPI-LAST-SERIAL` header (`none` when the header is absent), and its
body (the JSON document text). -/
structure Response where
  status : Nat
  serialHeader : Option Int
  body : String
  deriving DecidableEq

/-- The state `Master.__init__` stores (the pure fields; the aiohttp
session, proxy kwargs and event loop are I/O objects outside the
embedding). -/
structure Master where
  url : String
  timeout : ℚ
  global_timeout : ℚ
  allow_upstream_serial_mismatch : Bool
  allow_non_https : Bool
  deriving DecidableEq

/-- Python truthiness-based `or` on an optional float:
`global_timeout or FIVE_HOURS_FLOAT` yields the default when the value is
`None` or equal to `0` (falsy), and the value itself otherwise. -/
def pyOrDefault (x : Option ℚ) (d : ℚ) : ℚ :=
  match x with
  | none => d
  | some v => if v = 0 then d else v

/-- Embedding of `Master.__init__(url, timeout, global_timeout, proxy,
allow_non_https, allow_upstream_serial_mismatch)`.  It stores the fields,
defaulting `global_timeout` through Python `or`, then raises `ValueError`
when the URL starts with `"http://"` and `allow_non_https` is not set.
The proxy argument only configures the aiohttp session (I/O) and does not
affect any field modelled here, so it is omitted. -/
def Master.init (url : String) (timeout : ℚ) (global_timeout : Option ℚ)
    (allow_non_https : Bool) (allow_upstream_serial_mismatch : Bool) :
    Except MasterError Master :=
  if pyStartsWith url "http://" ∧ ¬ allow_non_https then
    .error (.valueError ("Master URL " ++ url ++ " is not https scheme"))
  else
    .ok { url := url
          timeout := timeout
          global_timeout := pyOrDefault global_timeout FIVE_HOURS_FLOAT
          allow_upstream_serial_mismatch := allow_upstream_serial_mismatch
          allow_non_https := allow_non_https }

/-- Embedding of `Master.check_for_stale_cache(path, required_serial,
got_serial)`.  Python: `if required_serial is not None: if not got_serial
or got_serial < required_serial: raise StalePage(...)`.  Note Python
truthiness: `not got_serial` is true both when `got_serial` is `None` and
when it equals `0`. -/
def Master.check_for_stale_cache (path : String) (required_serial : Option Int)
    (got_serial : Option Int) : Except MasterError Unit :=
  match required_serial with
  | none => .ok ()
  | some r =>
    match got_serial with
    | none => .error (.stalePage path r none)
    | some g =>
      if g = 0 ∨ g < r then .error (.stalePage path r (some g)) else .ok ()

/-- The URL rewriting at the top of `Master.get`: `if not
path.startswith(("https://", "http://")): path = self.url + path`. -/
def Master.requestUrl (m : Master) (path : String) : String :=
  if pyStartsWith path "https://" ∨ pyStartsWith path "http://" then path
  else m.url ++ path

/-- Embedding of `Master.get(path, required_serial)`: rewrite the path,
perform the session request (which itself may raise, e.g.
`ClientResponseError` for a non-2xx status since the session has
`raise_for_status=True`), read the serial header, run the stale-cache
check, and only then yield the response. -/
def Master.get (m : Master) (remote : String → Except MasterError Response)
    (path : String) (required_serial : Option Int) :
    Except MasterError Response :=
  let url := m.requestUrl path
  match remote url with
  | .error e => .error e
  | .ok r =>
    match Master.check_for_stale_cache url required_serial r.serialHeader with
    | .error e => .error e
    | .ok _ => .ok r

/-- Embedding of `Master.rpc(method_name, serial=0)`.  The XML-RPC method
is the function `method`; Python calls `method(serial)` when `serial` is
truthy and `method()` otherwise, modelled by the `Option Int` argument.
`except TimeoutError` logs and falls through, so the call returns `None`:
here `.ok none`.  Every other exception propagates. -/
def Master.rpc {α : Type} (method : Option Int → Except MasterError α)
    (serial : Int) : Except MasterError (Option α) :=
  match (if serial = 0 then method none else method (some serial)) with
  | .ok v => .ok (some v)
  | .error e => if e = MasterError.timeoutError then .ok none else .error e

/-- Embedding of `Master.all_packages()`: call
`rpc("list_packages_with_serial")` (no serial argument) and raise
`XmlRpcError` when the result is falsy (`None` or empty). The package
listing is a finite mapping, modelled as an association list. -/
def Master.all_packages
    (method : Option Int → Except MasterError (List (String × Int))) :
    Except MasterError (List (String × Int)) :=
  match Master.rpc method 0 with
  | .error e => .error e
  | .ok none => .error (.xmlRpcError "Unable to get full list of packages")
  | .ok (some l) =>
    if l.isEmpty then .error (.xmlRpcError "Unable to get full list of packages")
    else .ok l

/-- One row of the XML-RPC changelog: the tuple
`(package, _version, _time, _action, serial)`. -/
structure ChangelogEntry where
  package : String
  version : String
  time : Int
  action : String
  serial : Int
  deriving DecidableEq

/-- The body of the `for` loop in `Master.changed_packages`:
`if serial > packages.get(package, 0): packages[package] = serial`.
The dict is modelled extensionally as a function `String → Option Int`. -/
def changed_packages_step (packages : String → Option Int)
    (e : ChangelogEntry) : String → Option Int :=
  fun q =>
    if (packages e.package).getD 0 < e.serial then
      if q = e.package then some e.serial else packages q
    else packages q

/-- The whole fold of `Master.changed_packages` over the changelog rows,
starting from the empty dict. -/
def foldChangelog (changelog : List ChangelogEntry) : String → Option Int :=
  changelog.foldl changed_packages_step (fun _ => none)

/-- Embedding of `Master.changed_packages(last_serial)`: call
`rpc("changelog_since_serial", last_serial)`, normalize `None` to the
empty list, and fold the rows. -/
def Master.changed_packages
    (method : Option Int → Except MasterError (List ChangelogEntry))
    (last_serial : Int) : Except MasterError (String → Option Int) :=
  match Master.rpc method last_serial with
  | .error e => .error e
  | .ok r => .ok (foldChangelog (r.getD []))

/-- Embedding of `Master.get_package_metadata(package_name, serial=0)`:
a guarded fetch of `f"/pypi/{package_name}/json"`, re-raising a
`ClientResponseError` with status 404 as `PackageNotFound(package_name)`
and re-raising everything else unchanged. -/
def Master.get_package_metadata (m : Master)
    (remote : String → Except MasterError Response)
    (package_name : String) (serial : Int) : Except MasterError String :=
  match m.get remote ("/pypi/" ++ package_name ++ "/json") (some serial) with
  | .error (.clientResponseError status) =>
    if status = 404 then .error (.packageNotFound package_name)
    else .error (.clientResponseError status)
  | .error e => .error e
  | .ok r => .ok r.body

/-! Derived quantities and specification-side definitions used to state and
compare the claims, plus concrete stubs used by witnesses. -/

/-- Serials of the entries of `l` whose package is `p`, in list order. -/
def serialsOf (l : List ChangelogEntry) (p : String) : List Int :=
  l.filterMap (fun e => if e.package = p then some e.serial else none)

/-- The maximum of `0` and all serials of `p`'s entries in `l`: the
quantity the `changed_packages` fold actually tracks for `p` (its dict
lookup defaults to `0`). -/
def maxSerialFrom0 (l : List ChangelogEntry) (p : String) : Int :=
  (serialsOf l p).foldl max 0

/-- Specification-side definition, following the claim's words, for
comparison with `foldChangelog`: "a mapping from package name to the
maximum serial observed across that package's entries" (`none` when `p`
has no entry at all). -/
def specMaxSerialMapping (l : List ChangelogEntry) : String → Option Int :=
  fun p =>
    match serialsOf l p with
    | [] => none
    | a :: rest => some (rest.foldl max a)

/-- Specification-side definition, following the claim's words, for
comparison with `Master.check_for_stale_cache`: "the fetch succeeds iff
R is unset (None) or O is present and O >= R". -/
def specGuardSucceeds (required got : Option Int) : Bool :=
  match required with
  | none => true
  | some r =>
    match got with
    | none => false
    | some o => r ≤ o

/-- A dict reachable by the `changed_packages` fold: every stored serial
is positive (entries are stored only when strictly above the `0`
default). -/
def PosDict (d : String → Option Int) : Prop :=
  ∀ q v, d q = some v → 0 < v

/-- A Master over an encrypted base URL, as stub for witnesses. -/
def mHttps : Master :=
  { url := "https://pypi.org"
    timeout := 10
    global_timeout := FIVE_HOURS_FLOAT
    allow_upstream_serial_mismatch := false
    allow_non_https := false }

/-- A stub remote answering every URL with the same response. -/
def constRemote (r : Response) : String → Except MasterError Response :=
  fun _ => .ok r

/-- A stub remote raising `ClientResponseError(404)` for every URL. -/
def remote404 : String → Except MasterError Response :=
  fun _ => .error (.clientResponseError 404)

/-- A stub response carrying serial header `7`. -/
def resp7 : Response := { status := 200, serialHeader := some 7, body := "metadata" }

/-- A stub response carrying serial header `0`. -/
def resp0 : Response := { status := 200, serialHeader := some 0, body := "metadata" }

/-- A concrete changelog for witnesses. -/
def lC2 : List ChangelogEntry :=
  [{ package := "pkg-a", version := "1.0", time := 0, action := "new", serial := 8 },
   { package := "pkg-a", version := "1.1", time := 0, action := "new", serial := 10 },
   { package := "pkg-b", version := "1.0", time := 0, action := "new", serial := 6 }]

/-- A permutation of `lC2`. -/
def lC2perm : List ChangelogEntry :=
  [{ package := "pkg-b", version := "1.0", time := 0, action := "new", serial := 6 },
   { package := "pkg-a", version := "1.1", time := 0, action := "new", serial := 10 },
   { package := "pkg-a", version := "1.0", time := 0, action := "new", serial := 8 }]

/-- Extra changelog rows whose serials are all below an already-seen entry
of the same package. -/
def extraC2 : List ChangelogEntry :=
  [{ package := "pkg-a", version := "0.9", time := 0, action := "new", serial := 3 }]

/-- C9: when the caller supplies a required serial of exactly `0` (an
explicit requirement, not the `None` opt-out), the guard rejects a
response whose observed serial is absent or equal to `0` as stale,
because Python truthiness makes `not got_serial` treat `0` like a
missing serial. -/
theorem required_zero_rejects_missing_or_zero (path : String) (got : Option Int)
    (h : got = none ∨ got = some 0) :
    Master.check_for_stale_cache path (some 0) got
      = .error (.stalePage path 0 got) := by
  rcases h with h | h <;> subst h <;> simp [Master.check_for_stale_cache]

theorem required_zero_rejects_missing_or_zero_witness :
    Master.check_for_stale_cache "/pypi/examplepkg/json" (some 0) (some 0)
      = .error (.stalePage "/pypi/examplepkg/json" 0 (some 0)) :=
  required_zero_rejects_missing_or_zero "/pypi/examplepkg/json" (some 0) (Or.inr rfl)

/-- C10: a path already starting with `"https://"` or `"http://"` is
requested verbatim, any other path is prefixed with the Master's base
URL; `Master.get` consults the remote only at that request URL. -/
theorem get_prefix_url_formation (m : Master)
    (remote1 remote2 : String → Except MasterError Response)
    (path : String) (required : Option Int) :
    ((pyStartsWith path "https://" = true ∨ pyStartsWith path "http://" = true) →
        m.requestUrl path = path)
    ∧ (pyStartsWith path "https://" = false → pyStartsWith path "http://" = false →
        m.requestUrl path = m.url ++ path)
    ∧ (remote1 (m.requestUrl path) = remote2 (m.requestUrl path) →
        m.get remote1 path required = m.get remote2 path required) := by
  refine ⟨?_, ?_, ?_⟩
  · intro h
    rcases h with h | h <;> simp [Master.requestUrl, h]
  · intro h1 h2
    simp [Master.requestUrl, h1, h2]
  · intro h
    simp only [Master.get]
    rw [h]

theorem get_prefix_url_formation_witness :
    mHttps.requestUrl "/simple/" = "https://pypi.org" ++ "/simple/"
    ∧ mHttps.requestUrl "https://files.example.org/pkg.tar.gz"
        = "https://files.example.org/pkg.tar.gz" := by
  have h := get_prefix_url_formation mHttps (constRemote resp7) (constRemote resp7)
    "/simple/" none
  have h2 := get_prefix_url_formation mHttps (constRemote resp7) (constRemote resp7)
    "https://files.example.org/pkg.tar.gz" none
  exact ⟨h.2.1 (by decide) (by decide), h2.1 (Or.inl (by decide))⟩

/-- C6: construction with a base URL starting `"http://"` raises
`ValueError` when `allow_non_https` is not set, and succeeds with the
same URL when it is set. -/
theorem non_https_url_rejected (url : String) (timeout : ℚ) (gt : Option ℚ)
    (mismatch : Bool) (h : pyStartsWith url "http://" = true) :
    Master.init url timeout gt false mismatch
        = .error (.valueError ("Master URL " ++ url ++ " is not https scheme"))
    ∧ ∃ m : Master, Master.init url timeout gt true mismatch = .ok m ∧ m.url = url := by
  constructor
  · simp [Master.init, h]
  · have hm : Master.init url timeout gt true mismatch
        = .ok { url := url, timeout := timeout,
                global_timeout := pyOrDefault gt FIVE_HOURS_FLOAT,
                allow_upstream_serial_mismatch := mismatch,
                allow_non_https := true } := by
      simp [Master.init, h]
    exact ⟨_, hm, rfl⟩

theorem non_https_url_rejected_witness :
    Master.init "http://pypi.example.org" 10 none false false
        = .error (.valueError ("Master URL " ++ "http://pypi.example.org"
            ++ " is not https scheme"))
    ∧ ∃ m : Master, Master.init "http://pypi.example.org" 10 none true false = .ok m
        ∧ m.url = "http://pypi.example.org" :=
  non_https_url_rejected "http://pypi.example.org" 10 none false (by decide)

/-- C7 counterexample: a supplied global timeout of `-1` is non-positive,
yet construction keeps `-1` as the effective global timeout instead of
the 5-hour default — Python `or` only replaces falsy values (`None` and
`0`), and `-1` is truthy. -/
theorem negative_global_timeout_kept :
    Master.init "https://pypi.org" 10 (some (-1)) false false
      = .ok { url := "https://pypi.org", timeout := 10, global_timeout := -1,
              allow_upstream_serial_mismatch := false, allow_non_https := false }
    ∧ (-1 : ℚ) ≤ 0 ∧ (-1 : ℚ) ≠ FIVE_HOURS_FLOAT := by
  refine ⟨by decide, by norm_num, by decide⟩

/-- C7 (amended): if the optional global timeout is unset (`None`) or
equal to zero, the effective global timeout is the 5-hour default;
otherwise the supplied value — positive or not — is used. -/
theorem global_timeout_defaulting (url : String) (timeout : ℚ) (gt : Option ℚ)
    (anh mismatch : Bool) (m : Master)
    (h : Master.init url timeout gt anh mismatch = .ok m) :
    ((gt = none ∨ gt = some 0) → m.global_timeout = FIVE_HOURS_FLOAT)
    ∧ (∀ v : ℚ, gt = some v → v ≠ 0 → m.global_timeout = v) := by
  unfold Master.init at h
  split at h
  · exact absurd h (by simp)
  · cases h
    constructor
    · rintro (rfl | rfl) <;> simp [pyOrDefault]
    · rintro v rfl hv
      simp [pyOrDefault, hv]

theorem global_timeout_defaulting_witness :
    mHttps.global_timeout = FIVE_HOURS_FLOAT :=
  (global_timeout_defaulting "https://pypi.org" 10 (some 0) false false mHttps
    (by decide)).1 (Or.inr rfl)

/-- C8: `rpc` catches only `TimeoutError`, turning it into an absent
(`None`) result; a successful call is passed through, any non-timeout
failure propagates; consequently a timed-out changelog call is
indistinguishable, through `changed_packages`, from a legitimately empty
changelog. -/
theorem rpc_swallows_only_timeout {α : Type}
    (method : Option Int → Except MasterError α) (serial : Int) :
    ((if serial = 0 then method none else method (some serial))
        = .error .timeoutError → Master.rpc method serial = .ok none)
    ∧ (∀ e : MasterError, e ≠ .timeoutError →
        (if serial = 0 then method none else method (some serial)) = .error e →
        Master.rpc method serial = .error e)
    ∧ (∀ a : α, (if serial = 0 then method none else method (some serial)) = .ok a →
        Master.rpc method serial = .ok (some a))
    ∧ (∀ s : Int, Master.changed_packages (fun _ => .error .timeoutError) s
        = Master.changed_packages (fun _ => .ok []) s) := by
  refine ⟨?_, ?_, ?_, ?_⟩
  · intro h
    simp [Master.rpc, h]
  · intro e he h
    simp [Master.rpc, h, he]
  · intro a h
    simp [Master.rpc, h]
  · intro s
    by_cases hs : s = 0 <;>
      simp [Master.changed_packages, Master.rpc, hs, foldChangelog]

theorem rpc_swallows_only_timeout_witness :
    Master.rpc (fun _ => (.error .timeoutError : Except MasterError (List (String × Int)))) 3
      = .ok none :=
  (rpc_swallows_only_timeout
    (fun _ => (.error .timeoutError : Except MasterError (List (String × Int)))) 3).1 rfl

/-- C3: when the full-listing RPC yields an empty list or an absent
result (the timeout path), `all_packages` raises `XmlRpcError`; and it
never returns an empty listing successfully. -/
theorem all_packages_rejects_empty
    (method : Option Int → Except MasterError (List (String × Int))) :
    ((method none = .ok [] ∨ method none = .error .timeoutError) →
        Master.all_packages method
          = .error (.xmlRpcError "Unable to get full list of packages"))
    ∧ (∀ l : List (String × Int), Master.all_packages method = .ok l → l ≠ []) := by
  constructor
  · rintro (h | h) <;> simp [Master.all_packages, Master.rpc, h]
  · intro l hl
    unfold Master.all_packages at hl
    cases hr : Master.rpc method 0 with
    | error e =>
      rw [hr] at hl
      exact Except.noConfusion hl
    | ok o =>
      rw [hr] at hl
      cases o with
      | none => exact Except.noConfusion hl
      | some v =>
        cases hv : v.isEmpty with
        | true => simp [hv] at hl
        | false =>
          simp [hv] at hl
          subst hl
          simpa [List.isEmpty_iff] using hv

theorem all_packages_rejects_empty_witness :
    Master.all_packages (fun _ => .ok [])
      = .error (.xmlRpcError "Unable to get full list of packages") :=
  (all_packages_rejects_empty (fun _ => .ok [])).1 (Or.inl rfl)

/-- C4: when the changelog RPC yields an absent (`None`) result,
`changed_packages` succeeds with the empty mapping — the code normalizes
`None` to an empty change list rather than raising as `all_packages`
does. -/
theorem changed_packages_empty_on_absent
    (method : Option Int → Except MasterError (List ChangelogEntry))
    (last_serial : Int)
    (h : Master.rpc method last_serial = .ok none) :
    Master.changed_packages method last_serial = .ok (fun _ => none) := by
  unfold Master.changed_packages
  rw [h]
  rfl

theorem changed_packages_empty_on_absent_witness :
    Master.changed_packages (fun _ => .error .timeoutError) 5 = .ok (fun _ => none) :=
  changed_packages_empty_on_absent (fun _ => .error .timeoutError) 5 rfl

/-- The stale-cache check passes exactly when no serial is required, or
the observed serial is present, nonzero and at least the required one. -/
theorem check_ok_iff (path : String) (required got : Option Int) :
    Master.check_for_stale_cache path required got = .ok ()
      ↔ (required = none ∨
          ∃ o : Int, got = some o ∧ o ≠ 0 ∧
            ∀ req : Int, required = some req → req ≤ o) := by
  cases required with
  | none => simp [Master.check_for_stale_cache]
  | some r =>
    cases got with
    | none =>
      simp only [Master.check_for_stale_cache]
      constructor
      · intro h
        exact Except.noConfusion h
      · rintro (h | ⟨o, ho, _⟩)
        · exact Option.noConfusion h
        · exact Option.noConfusion ho
    | some g =>
      simp only [Master.check_for_stale_cache]
      constructor
      · intro h
        by_cases hgr : g = 0 ∨ g < r
        · rw [if_pos hgr] at h
          exact Except.noConfusion h
        · push_neg at hgr
          exact Or.inr ⟨g, rfl, hgr.1, fun req hreq => by
            injection hreq with hreq
            omega⟩
      · rintro (h | ⟨o, ho, ho0, hle⟩)
        · exact Option.noConfusion h
        · injection ho with ho
          subst ho
          have hr := hle r rfl
          rw [if_neg (by omega)]

/-- When a serial is required and the observed serial is absent, zero, or
strictly below it, the check raises `StalePage` carrying the path, the
required serial and the observed serial. -/
theorem check_stale_eq (path : String) (req : Int) (got : Option Int)
    (h : ∀ o : Int, got = some o → o = 0 ∨ o < req) :
    Master.check_for_stale_cache path (some req) got
      = .error (.stalePage path req got) := by
  cases got with
  | none => rfl
  | some g =>
    simp only [Master.check_for_stale_cache]
    rw [if_pos (h g rfl)]

/-- C1 (amended): given that the transport returns a response `r`, the
guarded fetch returns `r` iff the required serial is unset, or the
observed serial is present, nonzero (Python truthiness treats header
value `0` like a missing header) and at least the required serial;
otherwise it fails with `StalePage` identifying the request URL, the
required serial and the observed serial, and no response is returned. -/
theorem guarded_fetch_staleness (m : Master)
    (remote : String → Except MasterError Response)
    (path : String) (required : Option Int) (r : Response)
    (hok : remote (m.requestUrl path) = .ok r) :
    (m.get remote path required = .ok r ↔
      (required = none ∨
        ∃ o : Int, r.serialHeader = some o ∧ o ≠ 0 ∧
          ∀ req : Int, required = some req → req ≤ o))
    ∧ (∀ req : Int, required = some req →
        (∀ o : Int, r.serialHeader = some o → o = 0 ∨ o < req) →
        m.get remote path required
          = .error (.stalePage (m.requestUrl path) req r.serialHeader)) := by
  have key : m.get remote path required = .ok r ↔
      Master.check_for_stale_cache (m.requestUrl path) required r.serialHeader
        = .ok () := by
    simp only [Master.get, hok]
    cases hc : Master.check_for_stale_cache (m.requestUrl path) required
        r.serialHeader with
    | error e => simp
    | ok u =>
      cases u
      simp
  constructor
  · rw [key]
    exact check_ok_iff _ _ _
  · intro req hreq hstale
    subst hreq
    have hcheck := check_stale_eq (m.requestUrl path) req r.serialHeader hstale
    simp only [Master.get, hok, hcheck]

theorem guarded_fetch_staleness_witness :
    mHttps.get (constRemote resp7) "/pypi/examplepkg/json" (some 5) = .ok resp7 := by
  have h := guarded_fetch_staleness mHttps (constRemote resp7)
    "/pypi/examplepkg/json" (some 5) resp7 rfl
  exact h.1.mpr (Or.inr ⟨7, rfl, by decide, fun req hreq => by
    injection hreq with hreq
    omega⟩)

/-- C1 counterexample: with required serial `0` and observed serial `0`,
the claim's success condition holds (`O` is present and `O ≥ R`, per
`specGuardSucceeds`), yet the guarded fetch fails with `StalePage` and
returns no response. -/
theorem guarded_fetch_staleness_counterexample :
    mHttps.get (constRemote resp0) "/pypi/examplepkg/json" (some 0)
      = .error (.stalePage ("https://pypi.org" ++ "/pypi/examplepkg/json") 0 (some 0))
    ∧ specGuardSucceeds (some 0) (some 0) = true := by
  constructor <;> decide

/-- Every error of the stale-cache check is a `StalePage` for the checked
path and the observed serial. -/
theorem check_error_is_stale (path : String) (required got : Option Int)
    (e : MasterError)
    (h : Master.check_for_stale_cache path required got = .error e) :
    ∃ r : Int, e = .stalePage path r got := by
  cases required with
  | none => exact Except.noConfusion h
  | some r =>
    cases got with
    | none =>
      simp only [Master.check_for_stale_cache] at h
      injection h with h
      exact ⟨r, h.symm⟩
    | some g =>
      simp only [Master.check_for_stale_cache] at h
      by_cases hc : g = 0 ∨ g < r
      · rw [if_pos hc] at h
        injection h with h
        exact ⟨r, h.symm⟩
      · rw [if_neg hc] at h
        exact Except.noConfusion h

/-- Every error of the guarded fetch is either an error of the transport
at the request URL, or a `StalePage` from the consistency check. -/
theorem get_error_source (m : Master)
    (remote : String → Except MasterError Response)
    (path : String) (required : Option Int) (e : MasterError)
    (h : m.get remote path required = .error e) :
    remote (m.requestUrl path) = .error e
    ∨ ∃ (r0 : Int) (g : Option Int), e = .stalePage (m.requestUrl path) r0 g := by
  simp only [Master.get] at h
  split at h
  next e2 heq =>
    exact Or.inl (heq.trans h)
  next r heq =>
    split at h
    next e3 heq2 =>
      injection h with h
      obtain ⟨r0, hst⟩ := check_error_is_stale _ _ _ _ heq2
      exact Or.inr ⟨r0, r.serialHeader, by rw [← h, hst]⟩
    next u heq2 =>
      exact Except.noConfusion h

/-- C5: `get_package_metadata` fails with `PackageNotFound` carrying the
requested name exactly when the guarded fetch of the package's JSON path
raises `ClientResponseError` with status 404; every other failure —
another status, staleness, a timeout — propagates unchanged, and a
successful fetch returns the document body. The hypothesis records that
the transport itself never raises bandersnatch's `PackageNotFound`. -/
theorem metadata_not_found_mapping (m : Master)
    (remote : String → Except MasterError Response)
    (name : String) (serial : Int)
    (hremote : ∀ s : String, remote s ≠ .error (.packageNotFound name)) :
    (Master.get_package_metadata m remote name serial
        = .error (.packageNotFound name)
      ↔ m.get remote ("/pypi/" ++ name ++ "/json") (some serial)
          = .error (.clientResponseError 404))
    ∧ (∀ e : MasterError, e ≠ .clientResponseError 404 →
        m.get remote ("/pypi/" ++ name ++ "/json") (some serial) = .error e →
        Master.get_package_metadata m remote name serial = .error e)
    ∧ (∀ r : Response,
        m.get remote ("/pypi/" ++ name ++ "/json") (some serial) = .ok r →
        Master.get_package_metadata m remote name serial = .ok r.body) := by
  refine ⟨⟨?_, ?_⟩, ?_, ?_⟩
  · intro h
    unfold Master.get_package_metadata at h
    cases hg : m.get remote ("/pypi/" ++ name ++ "/json") (some serial) with
    | ok r =>
      rw [hg] at h
      exact Except.noConfusion h
    | error e =>
      rw [hg] at h
      cases e with
      | clientResponseError s =>
        by_cases hs : s = 404
        · subst hs
          rfl
        · simp [hs] at h
      | packageNotFound p =>
        simp at h
        subst h
        rcases get_error_source m remote _ (some serial) _ hg with hsrc | ⟨r0, g, habs⟩
        · exact absurd hsrc (hremote _)
        · exact MasterError.noConfusion habs
      | stalePage p r0 g => simp at h
      | xmlRpcError msg => simp at h
      | timeoutError => simp at h
      | valueError msg => simp at h
  · intro h
    unfold Master.get_package_metadata
    rw [h]
    rfl
  · intro e he h
    unfold Master.get_package_metadata
    rw [h]
    cases e with
    | clientResponseError s =>
      have hs : s ≠ 404 := fun hh => he (by rw [hh])
      simp [hs]
    | stalePage p r0 g => rfl
    | xmlRpcError msg => rfl
    | packageNotFound p => rfl
    | timeoutError => rfl
    | valueError msg => rfl
  · intro r hr
    unfold Master.get_package_metadata
    rw [hr]

theorem metadata_not_found_mapping_witness :
    Master.get_package_metadata mHttps remote404 "does-not-exist" 0
      = .error (.packageNotFound "does-not-exist") := by
  have h := metadata_not_found_mapping mHttps remote404 "does-not-exist" 0
    (fun s => by simp [remote404])
  exact h.1.mpr (by decide)

/-- A fold of `max` never goes below its initial value. -/
theorem foldl_max_init_le (s : List Int) (a : Int) : a ≤ s.foldl max a := by
  induction s generalizing a with
  | nil => simp
  | cons x xs ih =>
    simp only [List.foldl_cons]
    exact le_trans (le_max_left a x) (ih (max a x))

/-- A fold of `max` bounds every member of the list. -/
theorem foldl_max_le_of_mem (s : List Int) (b : Int) (h : b ∈ s) :
    ∀ a : Int, b ≤ s.foldl max a := by
  induction s with
  | nil => cases h
  | cons x xs ih =>
    intro a
    simp only [List.foldl_cons]
    rcases List.mem_cons.mp h with rfl | h2
    · exact le_trans (le_max_right a b) (foldl_max_init_le xs (max a b))
    · exact ih h2 (max a x)

/-- Folding `max` over elements all below the initial value changes
nothing. -/
theorem foldl_max_eq_of_le (s : List Int) :
    ∀ a : Int, (∀ b ∈ s, b ≤ a) → s.foldl max a = a := by
  induction s with
  | nil =>
    intro a _
    rfl
  | cons x xs ih =>
    intro a h
    have hx : x ≤ a := h x (List.mem_cons_self x xs)
    simp only [List.foldl_cons, max_eq_left hx]
    exact ih a (fun b hb => h b (List.mem_cons_of_mem x hb))

/-- Membership in the serials of a package. -/
theorem mem_serialsOf {l : List ChangelogEntry} {p : String} {b : Int} :
    b ∈ serialsOf l p ↔ ∃ e ∈ l, e.package = p ∧ e.serial = b := by
  simp only [serialsOf, List.mem_filterMap]
  constructor
  · rintro ⟨e, he, hfe⟩
    by_cases hp : e.package = p
    · rw [if_pos hp] at hfe
      injection hfe with hfe
      exact ⟨e, he, hp, hfe⟩
    · rw [if_neg hp] at hfe
      exact Option.noConfusion hfe
  · rintro ⟨e, he, hp, hb⟩
    exact ⟨e, he, by rw [if_pos hp, hb]⟩

/-- The serials of an appended changelog. -/
theorem serialsOf_append (l1 l2 : List ChangelogEntry) (p : String) :
    serialsOf (l1 ++ l2) p = serialsOf l1 p ++ serialsOf l2 p := by
  simp [serialsOf]

/-- A positive dict has a nonnegative defaulted lookup. -/
theorem posDict_getD_nonneg (d : String → Option Int) (hd : PosDict d)
    (p : String) : 0 ≤ (d p).getD 0 := by
  cases hdp : d p with
  | none => simp
  | some v =>
    simp only [hdp, Option.getD_some]
    exact le_of_lt (hd p v hdp)

/-- The loop body leaves every other package untouched. -/
theorem step_ne (d : String → Option Int) (e : ChangelogEntry) (p : String)
    (hp : p ≠ e.package) : changed_packages_step d e p = d p := by
  simp only [changed_packages_step]
  by_cases hlt : (d e.package).getD 0 < e.serial
  · rw [if_pos hlt, if_neg hp]
  · rw [if_neg hlt]

/-- The loop body at the entry's own package. -/
theorem step_eq (d : String → Option Int) (e : ChangelogEntry) (p : String)
    (hp : e.package = p) :
    changed_packages_step d e p
      = if (d p).getD 0 < e.serial then some e.serial else d p := by
  subst hp
  simp only [changed_packages_step]
  by_cases hlt : (d e.package).getD 0 < e.serial
  · rw [if_pos hlt]
    simp [hlt]
  · rw [if_neg hlt, if_neg hlt]

/-- The defaulted lookup after the loop body is the max of the previous
lookup and the entry's serial. -/
theorem step_getD_eq (d : String → Option Int) (e : ChangelogEntry) (p : String)
    (hp : e.package = p) :
    (changed_packages_step d e p).getD 0 = max ((d p).getD 0) e.serial := by
  rw [step_eq d e p hp]
  by_cases hlt : (d p).getD 0 < e.serial
  · rw [if_pos hlt, max_eq_right (le_of_lt hlt)]
    rfl
  · rw [if_neg hlt, max_eq_left (le_of_not_lt hlt)]

/-- The loop body stores only positive serials. -/
theorem step_preserves_pos (d : String → Option Int) (e : ChangelogEntry)
    (hd : PosDict d) : PosDict (changed_packages_step d e) := by
  intro q v hv
  by_cases hp : e.package = q
  · rw [step_eq d e q hp] at hv
    by_cases hlt : (d q).getD 0 < e.serial
    · rw [if_pos hlt] at hv
      injection hv with hv
      subst hv
      have := posDict_getD_nonneg d hd q
      omega
    · rw [if_neg hlt] at hv
      exact hd q v hv
  · rw [step_ne d e q (fun hh => hp hh.symm)] at hv
    exact hd q v hv

/-- Characterization of the `changed_packages` fold from any reachable
dict: the final binding of `p` is the max of its previous defaulted
lookup and the serials of `p`'s rows, when that max is positive, and the
previous binding otherwise. -/
theorem foldl_step_char (l : List ChangelogEntry) :
    ∀ d : String → Option Int, PosDict d → ∀ p : String,
      (l.foldl changed_packages_step d) p
        = if 0 < (serialsOf l p).foldl max ((d p).getD 0)
          then some ((serialsOf l p).foldl max ((d p).getD 0))
          else d p := by
  induction l with
  | nil =>
    intro d hd p
    simp only [List.foldl_nil, serialsOf, List.filterMap_nil]
    cases hdp : d p with
    | none => simp [hdp]
    | some v =>
      have hv := hd p v hdp
      simp [hdp, hv]
  | cons e rest ih =>
    intro d hd p
    rw [List.foldl_cons, ih (changed_packages_step d e) (step_preserves_pos d e hd) p]
    by_cases hp : e.package = p
    · have hser : serialsOf (e :: rest) p = e.serial :: serialsOf rest p := by
        simp [serialsOf, List.filterMap_cons, hp]
      rw [hser, List.foldl_cons, step_getD_eq d e p hp]
      by_cases hM : 0 < (serialsOf rest p).foldl max (max ((d p).getD 0) e.serial)
      · rw [if_pos hM, if_pos hM]
      · rw [if_neg hM, if_neg hM, step_eq d e p hp]
        have hinit : max ((d p).getD 0) e.serial
            ≤ (serialsOf rest p).foldl max (max ((d p).getD 0) e.serial) :=
          foldl_max_init_le _ _
        have h1 : e.serial ≤ max ((d p).getD 0) e.serial := le_max_right _ _
        have hm0 := posDict_getD_nonneg d hd p
        rw [if_neg (by omega)]
    · have hser : serialsOf (e :: rest) p = serialsOf rest p := by
        simp [serialsOf, List.filterMap_cons, hp]
      rw [hser, step_ne d e p (fun hh => hp hh.symm)]

/-- The mapping `changed_packages` builds, pointwise: the maximum serial
of the package's rows when positive, no binding otherwise. -/
theorem foldChangelog_eq (l : List ChangelogEntry) (p : String) :
    foldChangelog l p
      = if 0 < maxSerialFrom0 l p then some (maxSerialFrom0 l p) else none := by
  have h := foldl_step_char l (fun _ => none) (fun q v hv => Option.noConfusion hv) p
  simpa [foldChangelog, maxSerialFrom0] using h

/-- The fold is independent of the order of the changelog rows. -/
theorem foldChangelog_perm (l1 l2 : List ChangelogEntry) (h : l1.Perm l2)
    (p : String) : foldChangelog l1 p = foldChangelog l2 p := by
  have hmax : maxSerialFrom0 l1 p = maxSerialFrom0 l2 p := by
    haveI : RightCommutative (max : Int → Int → Int) :=
      ⟨fun b a1 a2 => Max.right_comm b a1 a2⟩
    exact (h.filterMap _).foldl_eq 0
  rw [foldChangelog_eq, foldChangelog_eq, hmax]

/-- Appending rows that are all dominated by an already-present row of
the same package leaves the fold unchanged. -/
theorem foldChangelog_superset (l extra : List ChangelogEntry)
    (h : ∀ e ∈ extra, ∃ e0 ∈ l, e0.package = e.package ∧ e.serial < e0.serial)
    (p : String) :
    foldChangelog (l ++ extra) p = foldChangelog l p := by
  have hmax : maxSerialFrom0 (l ++ extra) p = maxSerialFrom0 l p := by
    have happ : maxSerialFrom0 (l ++ extra) p
        = (serialsOf extra p).foldl max ((serialsOf l p).foldl max 0) := by
      unfold maxSerialFrom0
      rw [serialsOf_append, List.foldl_append]
    rw [happ]
    apply foldl_max_eq_of_le
    intro b hb
    obtain ⟨e, he, hep, hes⟩ := mem_serialsOf.mp hb
    obtain ⟨e0, he0, hpkg, hlt⟩ := h e he
    have hmem : e0.serial ∈ serialsOf l p :=
      mem_serialsOf.mpr ⟨e0, he0, by rw [hpkg, hep], rfl⟩
    have h1 : e0.serial ≤ (serialsOf l p).foldl max 0 :=
      foldl_max_le_of_mem _ _ hmem 0
    omega
  rw [foldChangelog_eq, foldChangelog_eq, hmax]

/-- C2 (amended): `changed_packages` folds the changelog rows into a
mapping holding, for each package, the maximum serial among its rows
whenever that maximum is positive — a package all of whose rows have
serial ≤ 0 gets no binding, because the fold's dict lookup defaults to
`0` and the comparison is strict.  The mapping is independent of the
order in which the rows are folded, and folding a superset whose extra
rows all have smaller serials than an already-seen row of the same
package leaves the mapping unchanged. -/
theorem changed_packages_max_fold (l l2 extra : List ChangelogEntry)
    (hperm : l.Perm l2)
    (hextra : ∀ e ∈ extra, ∃ e0 ∈ l, e0.package = e.package ∧ e.serial < e0.serial)
    (p : String) :
    Master.changed_packages (fun _ => .ok l) 1 = .ok (foldChangelog l)
    ∧ foldChangelog l p
        = (if 0 < maxSerialFrom0 l p then some (maxSerialFrom0 l p) else none)
    ∧ foldChangelog l2 p = foldChangelog l p
    ∧ foldChangelog (l ++ extra) p = foldChangelog l p :=
  ⟨rfl, foldChangelog_eq l p, foldChangelog_perm l2 l hperm.symm p,
    foldChangelog_superset l extra hextra p⟩

theorem changed_packages_max_fold_witness :
    foldChangelog lC2 "pkg-a" = some 10
    ∧ foldChangelog lC2perm "pkg-a" = foldChangelog lC2 "pkg-a"
    ∧ foldChangelog (lC2 ++ extraC2) "pkg-a" = foldChangelog lC2 "pkg-a" := by
  have h := changed_packages_max_fold lC2 lC2perm extraC2 (by decide) (by decide)
    "pkg-a"
  refine ⟨?_, h.2.2.1, h.2.2.2⟩
  rw [h.2.1]
  decide

/-- C2 counterexample: for the changelog consisting of one `pkg-a` row
with serial `0`, the claimed mapping sends `pkg-a` to its maximum
observed serial `0` (`specMaxSerialMapping`), but the fold in
`changed_packages` leaves `pkg-a` unbound, because `serial >
packages.get(package, 0)` is false at `0`. -/
theorem changed_packages_max_fold_counterexample :
    foldChangelog [{ package := "pkg-a", version := "1.0", time := 0,
                     action := "new", serial := 0 }] "pkg-a" = none
    ∧ specMaxSerialMapping [{ package := "pkg-a", version := "1.0", time := 0,
                              action := "new", serial := 0 }] "pkg-a" = some 0 := by
  constructor <;> decide

end Bandersnatch
